import Mathlib

/-!
Verification development for game_server_manager.

The Python sources are shallowly embedded:

* `gs_manager/config.py` (class `Config`): Python dicts whose values may be
  nested dicts are modelled by association lists of `PVal`; nested dicts are
  heap references (`PVal.ref`), so the in-place mutation performed by
  `Config._make_final_config` (`config[key].update(value)`,
  `del instance_config[key]`) is modelled faithfully by threading a `Heap`.
* `gs_manager/decorators.py`: `_get_instance_names`, `_instance_wrapper`,
  `_run_sync` and the aggregation in `multi_instance.multi_callback` are
  embedded as pure functions, exceptions as `Except`.
* `gs_manager/servers/base.py`: the PID/liveness state of `BaseServer`
  (`_is_running_single`, `is_running`, `is_accessible`, `start`, `stop`,
  `kill_server`) is embedded as an explicit record `ServerProc` with an
  event log; OS process liveness is an oracle `alive : time → pid → Bool`
  and waits advance the clock.
-/

namespace GsMgr

/-- A Python value as stored in a configuration dict: a scalar
(string / bool / int) or a reference to a (mutable) nested dict. -/
inductive PVal where
  | str : String → PVal
  | bool : Bool → PVal
  | int : Int → PVal
  | ref : Nat → PVal
deriving DecidableEq

/-- A Python dict with string keys, in insertion order. -/
abbrev PDict := List (String × PVal)

/-- The heap of nested dict objects; `PVal.ref a` points at address `a`. -/
abbrev Heap := List (Nat × PDict)

/-- Dict lookup (`d.get(k)` / `d[k]`). -/
def PDict.get? : PDict → String → Option PVal
  | [], _ => none
  | p :: rest, k => if p.1 = k then some p.2 else PDict.get? rest k

/-- `k in d`. -/
def PDict.hasKey (d : PDict) (k : String) : Bool :=
  (PDict.get? d k).isSome

/-- `d[k] = v`: replace the value in place if the key exists (its position is
kept, as for a Python dict), else append the new pair. -/
def PDict.setKey : PDict → String → PVal → PDict
  | [], k, v => [(k, v)]
  | p :: rest, k, v => if p.1 = k then (k, v) :: rest else p :: PDict.setKey rest k v

/-- `d.update(other)`: apply `setKey` for each pair of `other` in order. -/
def PDict.update (d other : PDict) : PDict :=
  other.foldl (fun acc p => PDict.setKey acc p.1 p.2) d

/-- `del d[k]`. -/
def PDict.delKey : PDict → String → PDict
  | [], _ => []
  | p :: rest, k => if p.1 = k then PDict.delKey rest k else p :: PDict.delKey rest k

/-- A dict is well formed when its keys are distinct (always true of an
actual Python dict). -/
def PDict.WF (d : PDict) : Prop :=
  (d.map Prod.fst).Nodup

instance (d : PDict) : Decidable (PDict.WF d) := by
  unfold PDict.WF; infer_instance

/-- Reading a heap cell; a dangling address reads as an empty dict. -/
def Heap.get : Heap → Nat → PDict
  | [], _ => []
  | p :: rest, a => if p.1 = a then p.2 else Heap.get rest a

/-- Writing a heap cell. -/
def Heap.set : Heap → Nat → PDict → Heap
  | [], a, d => [(a, d)]
  | p :: rest, a, d => if p.1 = a then (a, d) :: rest else p :: Heap.set rest a d

/-- True of scalar values (anything that is not a nested dict):
`isinstance(value, dict)` is false. -/
def PVal.isScalar : PVal → Bool
  | .ref _ => false
  | _ => true

/-- Python truthiness of a value (used by `config.get('type') or DEFAULT`). -/
def PVal.truthy (heap : Heap) : PVal → Bool
  | .str s => !(s = "")
  | .bool b => b
  | .int n => !(n = 0)
  | .ref a => !(Heap.get heap a).isEmpty

/-- First-present-wins choice, the precedence combinator of the spec formula
`CLI(k) if present else File(k) if present else Default(k)`. -/
def pick (a b : Option PVal) : Option PVal :=
  match a with
  | some v => some v
  | none => b

/-- `DEFAULT_SERVER_TYPE` of `gs_manager/config.py`. -/
def DEFAULT_SERVER_TYPE : String := "base"

/-- The state of a `gs_manager.config.Config` object: the four source dicts,
the discovered `_path`, the lazily built `_final_config` and the
`_instances` cache (keyed by `Optional[str]` instance name). -/
structure ConfigObj where
  defaultConfig : PDict
  fileConfig : PDict
  globalCliConfig : PDict
  cliConfig : PDict
  path : PVal
  finalConfig : Option PDict
  instances : List (Option String × PDict)
deriving DecidableEq

/-- The loop of `Config._make_final_config` lines 111-114: for each item of
the override dict (snapshot `items`) whose value is a nested dict,
`config[key].update(value)` (mutating the shared heap cell of the base
value in place) and `del instance_config[key]` (mutating the stored
override at `ovAddr`). A scalar `config[key]` or a missing key raises. -/
def mergeLoop (config : PDict) (ovAddr : Nat) :
    List (String × PVal) → Heap → Except String Heap
  | [], heap => .ok heap
  | (k, v) :: rest, heap =>
    match v with
    | .ref b =>
      match PDict.get? config k with
      | some (.ref a) =>
        let heap := Heap.set heap a (PDict.update (Heap.get heap a) (Heap.get heap b))
        let heap := Heap.set heap ovAddr (PDict.delKey (Heap.get heap ovAddr) k)
        mergeLoop config ovAddr rest heap
      | some _ => .error "AttributeError: update on a scalar value"
      | none => .error "KeyError in config[key].update"
    | _ => mergeLoop config ovAddr rest heap

/-- Lines 117-121 of `Config._make_final_config`: copy `_cli_config` and,
when it holds an `instance_overrides` entry, merge it into the shared dict
object referenced by `config['instance_overrides']` and delete it from the
copy. -/
def cliStep (co : ConfigObj) (config : PDict) (heap : Heap) :
    Except String (PDict × Heap × PDict) :=
  let cli := co.cliConfig
  if PDict.hasKey cli "instance_overrides" then
    match PDict.get? config "instance_overrides", PDict.get? cli "instance_overrides" with
    | some (.ref a), some (.ref b) =>
      .ok (config,
           Heap.set heap a (PDict.update (Heap.get heap a) (Heap.get heap b)),
           PDict.delKey cli "instance_overrides")
    | some (.ref _), some _ => .error "TypeError: update needs a mapping"
    | some _, _ => .error "AttributeError: update on a scalar value"
    | none, _ => .error "KeyError: instance_overrides"
  else .ok (config, heap, cli)

/-- Lines 122-137 of `Config._make_final_config`: apply the CLI dict, set
`current_instance` / drop `instance_overrides` for an instance, then force
`type`, `path`, `save` and `debug`. -/
def finishTail (co : ConfigObj) (heap : Heap) (config cli : PDict)
    (instName : Option String) : PDict :=
  let config := PDict.update config cli
  let config :=
    match instName with
    | some n => PDict.delKey (PDict.setKey config "current_instance" (.str n)) "instance_overrides"
    | none => config
  let config := PDict.setKey config "type"
    (match PDict.get? config "type" with
     | some v => if PVal.truthy heap v then v else .str DEFAULT_SERVER_TYPE
     | none => .str DEFAULT_SERVER_TYPE)
  let config := PDict.setKey config "path" co.path
  let config := if PDict.hasKey config "save" then config else PDict.setKey config "save" (.bool false)
  let config := if PDict.hasKey config "debug" then config else PDict.setKey config "debug" (.bool false)
  config

/-- The tail of `Config._make_final_config` (lines 117-137): `cliStep`
followed by `finishTail`. -/
def cliAndFinish (co : ConfigObj) (heap : Heap) (config : PDict)
    (instName : Option String) : Except String (PDict × Heap) := do
  let (config, heap, cli) ← cliStep co config heap
  .ok (finishTail co heap config cli instName, heap)

/-- `Config._make_final_config(None)`: defaults, then the file config, then
the global CLI config, then the CLI tail. -/
def make_final_config_base (co : ConfigObj) (heap : Heap) : Except String (PDict × Heap) :=
  cliAndFinish co heap
    (PDict.update (PDict.update co.defaultConfig co.fileConfig) co.globalCliConfig) none

/-- `Config._set_final_config`: build and cache the base final config when
`_final_config is None`, resetting the `_instances` cache. -/
def set_final_config (co : ConfigObj) (heap : Heap) : Except String (ConfigObj × Heap) :=
  match co.finalConfig with
  | some _ => .ok (co, heap)
  | none => do
    let (c, h) ← make_final_config_base co heap
    .ok ({ co with finalConfig := some c, instances := [] }, h)

/-- `Config._make_final_config(instance_name)`. For an instance the override
dict is looked up through `self['instance_overrides']` (which lazily builds
the base final config), its dict-valued fields are merged in place by
`mergeLoop`, the rest of it is applied with `config.update`, and the shared
CLI tail runs. -/
def make_final_config (co : ConfigObj) (heap : Heap) (instName : Option String) :
    Except String (ConfigObj × PDict × Heap) :=
  let config := PDict.update (PDict.update co.defaultConfig co.fileConfig) co.globalCliConfig
  match instName with
  | none => do
    let (c, h) ← cliAndFinish co heap config none
    .ok (co, c, h)
  | some n => do
    let (co, heap) ← set_final_config co heap
    match co.finalConfig with
    | none => .error "unreachable: final config was just built"
    | some bf =>
      match PDict.get? bf "instance_overrides" with
      | none => .error "KeyError: instance_overrides"
      | some (.str _) | some (.bool _) | some (.int _) =>
        .error "AttributeError: get on a scalar value"
      | some (.ref ioAddr) =>
        match PDict.get? (Heap.get heap ioAddr) n with
        | none => do
          let (c, h) ← cliAndFinish co heap config (some n)
          .ok (co, c, h)
        | some (.ref ovAddr) => do
          let heap ← mergeLoop config ovAddr (Heap.get heap ovAddr) heap
          let config := PDict.update config (Heap.get heap ovAddr)
          let (c, h) ← cliAndFinish co heap config (some n)
          .ok (co, c, h)
        | some _ => .error "AttributeError: items on a scalar value"

/-- The keys `_make_final_config` writes unconditionally or as bookkeeping
(`type`, `path`, `save`, `debug`, `current_instance`, `instance_overrides`);
the precedence formula is about the remaining, ordinary fields. -/
def specialKeys : List String :=
  ["type", "path", "save", "debug", "instance_overrides", "current_instance"]

/-- Cumulative effect on the stored override dict of the deletions the merge
loop performs: every key whose snapshot value is a nested dict is removed. -/
def dropRefItems : List (String × PVal) → PDict → PDict
  | [], d => d
  | (k, PVal.ref _) :: rest, d => dropRefItems rest (PDict.delKey d k)
  | _ :: rest, d => dropRefItems rest d

/-- The merge loop requires `config[k]` to be a nested dict whenever the
override value for `k` is one; this records that its heap cell is distinct
from the override table's cell and the override's own cell. -/
def refTargetOkB (config : PDict) (k : String) (ovA ioA : Nat) : Bool :=
  match PDict.get? config k with
  | some (PVal.ref a) => !(a = ovA) && !(a = ioA)
  | _ => false

/-- Python `format` of a value, used by the `name` qualification of
`Config.get_instance_config` (the repr of a nested dict is abstracted). -/
def formatVal : PVal → String
  | .str s => s
  | .bool b => if b then "True" else "False"
  | .int n => toString n
  | .ref _ => "dict"

/-- Lookup in the `_instances` cache. -/
def instancesGet? (l : List (Option String × PDict)) (name : Option String) : Option PDict :=
  match l with
  | [] => none
  | p :: rest => if p.1 = name then some p.2 else instancesGet? rest name

/-- Store into the `_instances` cache. -/
def instancesSet (l : List (Option String × PDict)) (name : Option String) (c : PDict) :
    List (Option String × PDict) :=
  match l with
  | [] => [(name, c)]
  | p :: rest => if p.1 = name then (name, c) :: rest else p :: instancesSet rest name c

/-- `Config.get_instance_config(name)`: on a cache miss, a `None` name is
replaced by the first override name when overrides exist, the final config
is built for it, the `name` field is instance-qualified, and the result is
cached under the (possibly replaced) name. -/
def get_instance_config (co : ConfigObj) (heap : Heap) (name : Option String) :
    Except String (ConfigObj × PDict × Heap) := do
  match instancesGet? co.instances name with
  | some c => .ok (co, c, heap)
  | none =>
    let (co, heap, name) ←
      match name with
      | some _ => .ok (co, heap, name)
      | none => do
        let (co, heap) ← set_final_config co heap
        match co.finalConfig with
        | none => .error "unreachable: final config was just built"
        | some bf =>
          match PDict.get? bf "instance_overrides" with
          | none => .error "KeyError: instance_overrides"
          | some (.ref a) => .ok (co, heap, ((Heap.get heap a).map Prod.fst).head?)
          | some _ => .error "AttributeError: keys on a scalar value"
    let (co, config, heap) ← make_final_config co heap name
    let config ←
      match name with
      | none => .ok config
      | some n =>
        match PDict.get? config "name" with
        | none => .error "KeyError: name"
        | some v => .ok (PDict.setKey config "name" (.str (formatVal v ++ "_" ++ n)))
    let co := { co with instances := instancesSet co.instances name config }
    match instancesGet? co.instances name with
    | some c => .ok (co, c, heap)
    | none => .error "KeyError: instances"

/-- Resolving the same instance twice in a row: the second
`_make_final_config` call runs on the state the first one left behind. -/
def resolve_twice (co : ConfigObj) (heap : Heap) (instName : Option String) :
    Except String (ConfigObj × PDict × Heap) :=
  match make_final_config co heap instName with
  | .error e => .error e
  | .ok (co', _, h') => make_final_config co' h' instName

/-! ### decorators.py: selectors, dispatch and aggregation -/

/-- `STATUS_SUCCESS` of `gs_manager/servers/base.py`. -/
def STATUS_SUCCESS : Int := 0

/-- `STATUS_FAILED` of `gs_manager/servers/base.py`. -/
def STATUS_FAILED : Int := 1

/-- Exit code 2 of `gs_manager/servers/base.py` (the aggregate code for a
mix of per-instance outcomes). -/
def STATUS_PARTIAL_FAIL : Int := 2

/-- The return-code aggregation of `multi_instance.multi_callback`
(decorators.py lines 246-263), applied to the per-instance results list. -/
def multi_callback_code (results : List Int) : Int :=
  let partialFailed := results.count STATUS_PARTIAL_FAIL
  let failed := results.count STATUS_FAILED
  let rc := STATUS_SUCCESS
  let rc := if failed > 0 then STATUS_PARTIAL_FAIL else rc
  let rc := if partialFailed > 0 then STATUS_PARTIAL_FAIL else rc
  if failed = results.length then STATUS_FAILED else rc

/-- `_run_sync` (decorators.py lines 110-132), with the per-instance
operation as `callback` (an exception modelled as `Except.error`).
Returns the list of instances for which the callback was actually invoked,
in invocation order, and the outcome: the collected result codes, or the
first unhandled exception, which aborts the remaining iterations. -/
def run_sync_trace {E R : Type} (callback : String → Except E R) :
    List String → List String × Except E (List R)
  | [] => ([], .ok [])
  | i :: rest =>
    match callback i with
    | .error e => ([i], .error e)
    | .ok r =>
      let (t, res) := run_sync_trace callback rest
      (i :: t, match res with
               | .ok rs => .ok (r :: rs)
               | .error e => .error e)

/-- The server/click context seen by the instance decorators. -/
structure ServerCtx where
  allInstanceNames : List String
  supportsMultiInstance : Bool
  serverName : String
deriving DecidableEq

/-- The errors the instance decorators raise. -/
inductive GsError where
  | unknownInstance : String → GsError
  | unsupportedMultiInstance : String → GsError
  | multiNotSupported : String → GsError
deriving DecidableEq

/-- Python `s.startswith(p)`, computed on the character lists. -/
def strStartsWith (s p : String) : Bool :=
  p.data.isPrefixOf s.data

/-- Python `s[n:]`, computed on the character lists. -/
def strDrop (s : String) (n : Nat) : String :=
  String.mk (s.data.drop n)

/-- Python `s.split(",")`, computed on the character lists. -/
def strSplitOnComma (s : String) : List String :=
  (s.data.splitOn ',').map String.mk

/-- `_get_instance_names` (decorators.py lines 48-66): `@all` yields all
names; `@each:` splits on commas and raises on the first unknown name;
any other token yields the empty list. -/
def get_instance_names (ctx : ServerCtx) (instanceStr : String) : Except GsError (List String) :=
  if instanceStr = "@all" then .ok ctx.allInstanceNames
  else if strStartsWith instanceStr "@each:" then
    let names := strSplitOnComma (strDrop instanceStr 6)
    match names.find? (fun n => !ctx.allInstanceNames.contains n) with
    | some n => .error (.unknownInstance n)
    | none => .ok names
  else .ok []

/-- What `_instance_wrapper` decides to run. -/
inductive Dispatch where
  | runSingle : Option String → Dispatch
  | runMulti : List String → Dispatch
deriving DecidableEq

/-- `_instance_wrapper` (decorators.py lines 69-107): no instance runs the
command once; with an instance, a server that does not support multiple
instances raises; an `@` selector expands and goes to the multi callback;
an unknown bare name raises; a known bare name runs the command once. -/
def instance_wrapper (ctx : ServerCtx) (instName : Option String) : Except GsError Dispatch :=
  match instName with
  | none => .ok (.runSingle none)
  | some s =>
    if !ctx.supportsMultiInstance then .error (.unsupportedMultiInstance ctx.serverName)
    else if strStartsWith s "@" then
      match get_instance_names ctx s with
      | .error e => .error e
      | .ok names => .ok (.runMulti names)
    else if !ctx.allInstanceNames.contains s then .error (.unknownInstance s)
    else .ok (.runSingle (some s))

/-- A command wrapped by the `single_instance` decorator (decorators.py
lines 196-211): its multi callback unconditionally raises, so the result is
either the single instance the body runs for, or an error. -/
def single_instance_dispatch (ctx : ServerCtx) (commandName : String)
    (instName : Option String) : Except GsError (Option String) :=
  match instance_wrapper ctx instName with
  | .ok (.runSingle i) => .ok i
  | .ok (.runMulti _) => .error (.multiNotSupported commandName)
  | .error e => .error e

/-! ### servers/base.py: PID tracking and the process lifecycle -/

/-- Observable side effects of the lifecycle commands. -/
inductive SEvent where
  | broadcast
  | saveCommand
  | stopCommand
  | sigint : Int → SEvent
  | sigkill : Int → SEvent
  | launch : Bool → SEvent
  | pipeLog
deriving DecidableEq

/-- The state a `BaseServer` instance operates on: the PID file, an OS
liveness oracle `alive time pid`, a clock advanced by sleeps, the config
fields the lifecycle commands read, the `ps`-derived PID `_find_pid` would
discover, and an event log. -/
structure ServerProc where
  pidFile : Option Int
  alive : Nat → Int → Bool
  now : Nat
  preStop : Nat
  maxStop : Nat
  waitStart : Nat
  maxStart : Nat
  spawnProcess : Bool
  hasSayCommand : Bool
  hasStopCommand : Bool
  hasSaveCommand : Bool
  stopCommandOk : Bool
  psPid : Option Int
  events : List SEvent

/-- Append an observable event. -/
def logEvent (s : ServerProc) (e : SEvent) : ServerProc :=
  { s with events := s.events ++ [e] }

/-- `time.sleep(n)`. -/
def sleepSec (s : ServerProc) (n : Nat) : ServerProc :=
  { s with now := s.now + n }

/-- `BaseServer._is_running_single` (base.py lines 350-360): no PID file
reads as not running; a dead tracked PID reads as not running and deletes
the PID file unless `delete_pid` is false; a live PID reads as running. -/
def is_running_single (s : ServerProc) (deletePid : Bool) : Bool × ServerProc :=
  match s.pidFile with
  | none => (false, s)
  | some pid =>
    if s.alive s.now pid then (true, s)
    else (false, if deletePid then { s with pidFile := none } else s)

/-- `BaseServer.is_running` (base.py lines 362-379) for a server with no
named instances (the `check_all` branch is skipped). The final statement of
the source is `return self._is_running_single()`: the `delete_pid`
argument is not forwarded, so `_is_running_single` always runs with its
default `delete_pid=True`. -/
def is_running (s : ServerProc) (deletePid : Bool := true) : Bool × ServerProc :=
  is_running_single s true

/-- `BaseServer.is_accessible` (base.py lines 381-382):
`self.is_running(delete_pid=False)`. -/
def is_accessible (s : ServerProc) : Bool × ServerProc :=
  is_running s false

/-- `BaseServer.kill_server` (base.py lines 401-406): SIGKILL to the
tracked PID when one is on file. -/
def kill_server (s : ServerProc) : ServerProc :=
  match s.pidFile with
  | none => s
  | some pid => logEvent s (.sigkill pid)

/-- `BaseServer._prestop` (base.py lines 289-311): when a say command is
configured the shutdown warning is broadcast and `True` is returned. -/
def prestop (s : ServerProc) : Bool × ServerProc :=
  if s.hasSayCommand then (true, logEvent s .broadcast) else (false, s)

/-- `BaseServer._stop` (base.py lines 313-337): save then the graceful stop
command when configured; when that is missing or fails, SIGINT to the
tracked PID. -/
def stop_graceful (s : ServerProc) : ServerProc :=
  let (stopped, s) :=
    if s.hasStopCommand then
      let s := if s.hasSaveCommand then logEvent s .saveCommand else s
      let s := logEvent s .stopCommand
      (s.stopCommandOk, s)
    else (false, s)
  if stopped then s
  else
    match s.pidFile with
    | some pid => logEvent s (.sigint pid)
    | none => s

/-- The `_wait(max_stop, callback)` loop of `stop`: each second, break when
`is_running` turns false, else sleep one second; at most `n` iterations. -/
def stop_wait_loop : Nat → ServerProc → ServerProc
  | 0, s => s
  | n + 1, s =>
    let (r, s) := is_running s
    if !r then s else stop_wait_loop n (sleepSec s 1)

/-- `BaseServer.stop` (base.py lines 612-656). -/
def stop (s : ServerProc) (force : Bool) : Int × ServerProc :=
  let (running, s) := is_running s
  if running then
    let s :=
      if s.preStop > 0 && !force then
        let (sent, s) := prestop s
        if sent then sleepSec s s.preStop else s
      else s
    let s :=
      if force then sleepSec (kill_server s) 1
      else stop_wait_loop s.maxStop (stop_graceful s)
    let (still, s) := is_running s
    if still then (STATUS_PARTIAL_FAIL, s) else (STATUS_SUCCESS, s)
  else (STATUS_FAILED, s)

/-- The `_wait(max_start, callback)` loop of `_startup_check`: break when
`is_running() and is_accessible()` holds (short-circuit as in Python), else
sleep one second; at most `n` iterations. -/
def startup_wait_loop : Nat → ServerProc → ServerProc
  | 0, s => s
  | n + 1, s =>
    let (r1, s) := is_running s
    if r1 then
      let (r2, s) := is_accessible s
      if r2 then s else startup_wait_loop n (sleepSec s 1)
    else startup_wait_loop n (sleepSec s 1)

/-- `BaseServer._startup_check` (base.py lines 216-240). -/
def startup_check (s : ServerProc) : Int × ServerProc :=
  let s := startup_wait_loop s.maxStart s
  let (r, s) := is_running s
  if r then
    let (acc, s) := is_accessible s
    if acc then (STATUS_SUCCESS, s) else (STATUS_PARTIAL_FAIL, s)
  else (STATUS_FAILED, s)

/-- `BaseServer.start` (base.py lines 511-577): an already running server
returns partial failure at once; otherwise the stale PID file is removed,
the launch command runs, foreground returns `None`, a spawned process gets
its log pipe, `wait_start` seconds pass, `_find_pid` persists the
discovered PID (raising when none is found), and unless `--no-verify` the
startup check polls the server. -/
def start (s : ServerProc) (noVerify foreground : Bool) :
    Except String (Option Int × ServerProc) :=
  let (running, s) := is_running s
  if running then .ok (some STATUS_PARTIAL_FAIL, s)
  else
    let s := { s with pidFile := none }
    let s := logEvent s (.launch foreground)
    if foreground then .ok (none, s)
    else
      let s := if s.spawnProcess then logEvent s .pipeLog else s
      let s := if s.waitStart > 0 then sleepSec s s.waitStart else s
      match s.psPid with
      | none => .error "could not determine PID"
      | some p =>
        let s := { s with pidFile := some p }
        if noVerify then .ok (some STATUS_SUCCESS, s)
        else
          let (code, s) := startup_check s
          .ok (some code, s)

/-! ### Concrete inputs used by refutation and witness theorems -/

/-- A configuration whose global CLI mapping supplies `user` while the
override of instance `A` also supplies `user` (heap cell 2). -/
def c1CexCo : ConfigObj :=
  ⟨[("user", .str "default_user"), ("name", .str "gs"), ("instance_overrides", .ref 1)],
   [], [("user", .str "cli_alice")], [], .str "/srv", none, []⟩

/-- Heap for `c1CexCo`: cell 1 is the override table, cell 2 instance `A`'s
override. -/
def c1CexHeap : Heap :=
  [(1, [("A", .ref 2)]), (2, [("user", .str "override_bob")])]

/-- A configuration with all four layers populated and a scalar override for
instance `A`; the base final config is already built. -/
def c1WitCo : ConfigObj :=
  ⟨[("user", .str "default_user"), ("port", .int 25565), ("instance_overrides", .ref 1)],
   [("port", .int 1111)],
   [("user", .str "gcli_user")],
   [("port", .int 2222)],
   .str "/srv", some [("instance_overrides", .ref 1)], []⟩

/-- Heap for `c1WitCo`. -/
def c1WitHeap : Heap :=
  [(1, [("A", .ref 2)]), (2, [("user", .str "override_user")])]

/-- A configuration whose instance `A` has a dict-valued override field
`settings` (heap cell 4) merged into the shared base cell 0. -/
def c6WitCo : ConfigObj :=
  ⟨[("settings", .ref 0), ("name", .str "gs"), ("instance_overrides", .ref 1), ("user", .str "u0")],
   [("user", .str "file_user")],
   [],
   [("debug", .bool true)],
   .str "/srv", some [("instance_overrides", .ref 1)], []⟩

/-- Heap for `c6WitCo`. -/
def c6WitHeap : Heap :=
  [(0, [("x", .str "base")]), (1, [("A", .ref 2)]),
   (2, [("settings", .ref 4), ("user", .str "user_a")]),
   (4, [("x", .str "fromA")])]

/-- A configuration with two instances: `A` overrides the dict-valued field
`settings` (via heap cell 4), `B` overrides nothing. -/
def c7Co : ConfigObj :=
  ⟨[("settings", .ref 0), ("name", .str "gs"), ("instance_overrides", .ref 1)],
   [], [], [], .str "/srv", none, []⟩

/-- Heap for `c7Co`: cell 0 is the shared base value of `settings`. -/
def c7Heap : Heap :=
  [(0, [("x", .str "base")]), (1, [("A", .ref 2), ("B", .ref 3)]),
   (2, [("settings", .ref 4)]), (3, []), (4, [("x", .str "fromA")])]

/-- Resolve instance `B`, then instance `A`, then `B` again, and observe
`settings["x"]` of `B`'s resolved config before and after `A`'s resolution. -/
def c7Observe : Option (Option PVal × Option PVal) :=
  match make_final_config c7Co c7Heap (some "B") with
  | .error _ => none
  | .ok (co1, cB1, h1) =>
    match make_final_config co1 h1 (some "A") with
    | .error _ => none
    | .ok (co2, _, h2) =>
      match make_final_config co2 h2 (some "B") with
      | .error _ => none
      | .ok (_, cB2, h3) =>
        match PDict.get? cB1 "settings", PDict.get? cB2 "settings" with
        | some (.ref a1), some (.ref a2) =>
          some (PDict.get? (Heap.get h1 a1) "x", PDict.get? (Heap.get h3 a2) "x")
        | _, _ => none

/-- A server with instances `alpha` and `beta` that supports multiple
instances. -/
def ctxTwo : ServerCtx :=
  ⟨["alpha", "beta"], true, "test"⟩

/-- A per-instance operation that succeeds except on `beta`. -/
def c3Callback : String → Except String Int :=
  fun n => if n = "beta" then .error "boom" else .ok 0

/-- A server state whose tracked PID 42 is dead (killed externally). -/
def c8Stale : ServerProc :=
  ⟨some 42, fun _ _ => false, 0, 30, 30, 3, 60, false, true, true, false, true, none, []⟩

/-- A server state with no PID file at all. -/
def c8NoPid : ServerProc :=
  ⟨none, fun _ _ => false, 0, 30, 30, 3, 60, false, true, true, false, true, none, []⟩

/-- A running server (PID 42 alive at time 0) that dies as soon as it is
killed (dead from time 1 on). -/
def c9Proc : ServerProc :=
  ⟨some 42, fun t p => decide (p = 42) && decide (t = 0), 0, 30, 30, 3, 60,
   false, true, true, false, true, none, []⟩

/-- A running server whose PID 42 stays alive. -/
def c10Proc : ServerProc :=
  ⟨some 42, fun _ p => decide (p = 42), 0, 30, 30, 3, 60,
   false, true, true, false, true, none, []⟩

/-! ## Lemmas about the dict and heap model -/

theorem PDict.get?_setKey (d : PDict) (k k' : String) (v : PVal) :
    PDict.get? (PDict.setKey d k v) k' = if k = k' then some v else PDict.get? d k' := by
  induction d with
  | nil => simp [PDict.setKey, PDict.get?]
  | cons p rest ih =>
    simp only [PDict.setKey]
    by_cases h : p.1 = k
    · simp only [if_pos h, PDict.get?]
      by_cases hk : k = k'
      · simp [hk]
      · have hp : ¬ p.1 = k' := by rw [h]; exact hk
        simp [hk, hp]
    · simp only [if_neg h, PDict.get?, ih]
      by_cases hp : p.1 = k'
      · have hk : ¬ k = k' := fun e => h (hp.trans e.symm)
        simp [hp, hk]
      · simp [hp]

theorem PDict.get?_delKey (d : PDict) (k k' : String) :
    PDict.get? (PDict.delKey d k) k' = if k' = k then none else PDict.get? d k' := by
  induction d with
  | nil => simp [PDict.delKey, PDict.get?]
  | cons p rest ih =>
    simp only [PDict.delKey]
    by_cases h : p.1 = k
    · rw [if_pos h, ih]
      by_cases hk : k' = k
      · simp [hk]
      · have hp : ¬ p.1 = k' := fun e => hk (e.symm.trans h)
        simp [PDict.get?, hk, hp]
    · rw [if_neg h]
      simp only [PDict.get?, ih]
      by_cases hp : p.1 = k'
      · have hk : ¬ k' = k := fun e => h ((hp.trans e))
        simp [hp, hk]
      · simp [hp]

theorem PDict.get?_eq_none_of_not_mem (d : PDict) (k : String)
    (h : k ∉ d.map Prod.fst) : PDict.get? d k = none := by
  induction d with
  | nil => rfl
  | cons p rest ih =>
    simp only [List.map_cons, List.mem_cons, not_or] at h
    have h1 : ¬ p.1 = k := fun e => h.1 e.symm
    simp [PDict.get?, h1, ih h.2]

theorem PDict.get?_update (d e : PDict) (k : String) (he : PDict.WF e) :
    PDict.get? (PDict.update d e) k = pick (PDict.get? e k) (PDict.get? d k) := by
  induction e generalizing d with
  | nil => simp [PDict.update, PDict.get?, pick]
  | cons p rest ih =>
    rw [PDict.WF, List.map_cons, List.nodup_cons] at he
    obtain ⟨hnm, hnd⟩ := he
    show PDict.get? (PDict.update (PDict.setKey d p.1 p.2) rest) k = _
    rw [ih _ hnd, PDict.get?_setKey]
    by_cases hk : p.1 = k
    · have hnone : PDict.get? rest k = none :=
        PDict.get?_eq_none_of_not_mem _ _ (hk ▸ hnm)
      simp [PDict.get?, hk, hnone, pick]
    · simp [PDict.get?, hk, pick]

theorem PDict.mem_delKey {d : PDict} {k : String} {p : String × PVal}
    (h : p ∈ PDict.delKey d k) : p ∈ d ∧ ¬ p.1 = k := by
  induction d with
  | nil => simp [PDict.delKey] at h
  | cons q rest ih =>
    by_cases hq : q.1 = k
    · rw [PDict.delKey, if_pos hq] at h
      obtain ⟨h1, h2⟩ := ih h
      exact ⟨List.mem_cons_of_mem _ h1, h2⟩
    · rw [PDict.delKey, if_neg hq] at h
      rcases List.mem_cons.mp h with h | h
      · exact ⟨by simp [h], by rw [h]; exact hq⟩
      · obtain ⟨h1, h2⟩ := ih h
        exact ⟨List.mem_cons_of_mem _ h1, h2⟩

theorem Heap.get_set (h : Heap) (a a' : Nat) (d : PDict) :
    Heap.get (Heap.set h a d) a' = if a' = a then d else Heap.get h a' := by
  induction h with
  | nil => simp [Heap.set, Heap.get, eq_comm]
  | cons p rest ih =>
    simp only [Heap.set]
    by_cases hp : p.1 = a
    · simp only [if_pos hp, Heap.get]
      by_cases ha : a' = a
      · simp [ha]
      · have h2 : ¬ p.1 = a' := fun e => ha (e.symm.trans hp)
        have h3 : ¬ a = a' := fun e => ha e.symm
        simp [ha, h2, h3]
    · simp only [if_neg hp, Heap.get, ih]
      by_cases hpa : p.1 = a'
      · have : ¬ a' = a := fun e => hp (hpa.trans e)
        simp [hpa, this]
      · simp [hpa]

theorem except_bind_ok {E A B : Type} (v : A) (f : A → Except E B) :
    (Except.ok v : Except E A) >>= f = f v := rfl

theorem PDict.hasKey_eq_false {d : PDict} {k : String} (h : PDict.get? d k = none) :
    PDict.hasKey d k = false := by
  simp [PDict.hasKey, h]

theorem PDict.get?_condSetKey (d : PDict) (c : Prop) [Decidable c] (k0 k : String) (v : PVal)
    (h : ¬ k0 = k) :
    PDict.get? (if c then d else PDict.setKey d k0 v) k = PDict.get? d k := by
  by_cases hc : c
  · rw [if_pos hc]
  · rw [if_neg hc, PDict.get?_setKey, if_neg h]

theorem cliStep_ok (co : ConfigObj) (config : PDict) (heap : Heap)
    (hio : PDict.get? co.cliConfig "instance_overrides" = none) :
    cliStep co config heap = .ok (config, heap, co.cliConfig) := by
  simp [cliStep, PDict.hasKey_eq_false hio]

theorem cliAndFinish_ok (co : ConfigObj) (heap : Heap) (config : PDict) (i : Option String)
    (hio : PDict.get? co.cliConfig "instance_overrides" = none) :
    cliAndFinish co heap config i =
      .ok (finishTail co heap config co.cliConfig i, heap) := by
  rw [cliAndFinish, cliStep_ok co config heap hio]
  rfl

theorem finishTail_get (co : ConfigObj) (heap : Heap) (config cli : PDict)
    (i : Option String) (k : String) (hwf : PDict.WF cli) (hk : k ∉ specialKeys) :
    PDict.get? (finishTail co heap config cli i) k =
      pick (PDict.get? cli k) (PDict.get? config k) := by
  simp only [specialKeys, List.mem_cons, List.not_mem_nil, or_false, not_or] at hk
  obtain ⟨ht, hp, hs, hd, hio, hcur⟩ := hk
  simp only [finishTail]
  rw [PDict.get?_condSetKey _ _ _ _ _ (fun e => hd e.symm),
      PDict.get?_condSetKey _ _ _ _ _ (fun e => hs e.symm),
      PDict.get?_setKey, if_neg (fun e => hp e.symm),
      PDict.get?_setKey, if_neg (fun e => ht e.symm)]
  cases i with
  | none => rw [PDict.get?_update _ _ _ hwf]
  | some n =>
    rw [PDict.get?_delKey, if_neg hio, PDict.get?_setKey, if_neg (fun e => hcur e.symm),
        PDict.get?_update _ _ _ hwf]

theorem set_final_config_some (co : ConfigObj) (heap : Heap) (bf : PDict)
    (hfc : co.finalConfig = some bf) :
    set_final_config co heap = .ok (co, heap) := by
  rw [set_final_config, hfc]

theorem mergeLoop_scalar (config : PDict) (a : Nat) (items : List (String × PVal)) (heap : Heap)
    (h : ∀ p ∈ items, p.2.isScalar = true) :
    mergeLoop config a items heap = .ok heap := by
  induction items with
  | nil => rfl
  | cons p rest ih =>
    obtain ⟨k, v⟩ := p
    have hv := h (k, v) (List.mem_cons_self _ _)
    have hrest : ∀ q ∈ rest, q.2.isScalar = true :=
      fun q hq => h q (List.mem_cons_of_mem _ hq)
    cases v with
    | ref b => simp [PVal.isScalar] at hv
    | str z => simpa [mergeLoop] using ih hrest
    | bool z => simpa [mergeLoop] using ih hrest
    | int z => simpa [mergeLoop] using ih hrest

theorem mergeLoop_spec (config : PDict) (ovA ioA : Nat) (items : List (String × PVal))
    (heap : Heap) (hne : ovA ≠ ioA)
    (hrefs : ∀ p ∈ items, p.2.isScalar = false → refTargetOkB config p.1 ovA ioA = true) :
    ∃ h', mergeLoop config ovA items heap = .ok h'
      ∧ Heap.get h' ioA = Heap.get heap ioA
      ∧ Heap.get h' ovA = dropRefItems items (Heap.get heap ovA) := by
  revert hrefs
  induction items generalizing heap with
  | nil => intro _; exact ⟨heap, rfl, rfl, rfl⟩
  | cons p rest ih =>
    intro hrefs
    obtain ⟨k, v⟩ := p
    have hrest : ∀ q ∈ rest, q.2.isScalar = false → refTargetOkB config q.1 ovA ioA = true :=
      fun q hq => hrefs q (List.mem_cons_of_mem _ hq)
    cases v with
    | str z =>
      obtain ⟨h', h1, h2, h3⟩ := ih heap hrest
      exact ⟨h', by simpa [mergeLoop] using h1, h2, by simpa [dropRefItems] using h3⟩
    | bool z =>
      obtain ⟨h', h1, h2, h3⟩ := ih heap hrest
      exact ⟨h', by simpa [mergeLoop] using h1, h2, by simpa [dropRefItems] using h3⟩
    | int z =>
      obtain ⟨h', h1, h2, h3⟩ := ih heap hrest
      exact ⟨h', by simpa [mergeLoop] using h1, h2, by simpa [dropRefItems] using h3⟩
    | ref b =>
      have h0 := hrefs (k, .ref b) (List.mem_cons_self _ _) rfl
      rw [refTargetOkB] at h0
      cases hg : PDict.get? config k with
      | none => rw [hg] at h0; simp at h0
      | some w =>
        cases w with
        | str z => rw [hg] at h0; simp at h0
        | bool z => rw [hg] at h0; simp at h0
        | int z => rw [hg] at h0; simp at h0
        | ref a =>
          rw [hg] at h0
          simp only [Bool.and_eq_true, Bool.not_eq_true', decide_eq_false_iff_not] at h0
          obtain ⟨haov, haio⟩ := h0
          have e1 : Heap.get (Heap.set heap a
              (PDict.update (Heap.get heap a) (Heap.get heap b))) ovA = Heap.get heap ovA := by
            rw [Heap.get_set, if_neg (fun e => haov e.symm)]
          obtain ⟨h', h1, h2, h3⟩ := ih
            (Heap.set (Heap.set heap a (PDict.update (Heap.get heap a) (Heap.get heap b))) ovA
              (PDict.delKey (Heap.get (Heap.set heap a
                (PDict.update (Heap.get heap a) (Heap.get heap b))) ovA) k)) hrest
          refine ⟨h', ?_, ?_, ?_⟩
          · simp only [mergeLoop, hg]
            exact h1
          · rw [h2, Heap.get_set, if_neg (fun e => hne e.symm), Heap.get_set,
                if_neg (fun e => haio e.symm)]
          · rw [h3, Heap.get_set, if_pos rfl, e1]
            simp [dropRefItems]

theorem dropRefItems_no_ref (items : List (String × PVal)) (d : PDict)
    (h : ∀ p ∈ d, ∀ b, p.2 = PVal.ref b →
        ∃ q, q ∈ items ∧ q.1 = p.1 ∧ ∃ b', q.2 = PVal.ref b') :
    ∀ p ∈ dropRefItems items d, p.2.isScalar = true := by
  induction items generalizing d with
  | nil =>
    intro p hp
    cases hv : p.2 with
    | ref b =>
      obtain ⟨q, hq, _, _⟩ := h p hp b hv
      exact absurd hq (List.not_mem_nil q)
    | str z => rfl
    | bool z => rfl
    | int z => rfl
  | cons q rest ih =>
    obtain ⟨k, v⟩ := q
    cases v with
    | ref b =>
      intro p hp
      refine ih (PDict.delKey d k) ?_ p (by simpa [dropRefItems] using hp)
      intro r hr b' hb'
      obtain ⟨hrd, hrk⟩ := PDict.mem_delKey hr
      obtain ⟨q', hq', hq1, b'', hb''⟩ := h r hrd b' hb'
      rcases List.mem_cons.mp hq' with he | hq'
      · have : r.1 = k := by rw [← hq1, he]
        exact absurd this hrk
      · exact ⟨q', hq', hq1, b'', hb''⟩
    | str z =>
      intro p hp
      refine ih d ?_ p (by simpa [dropRefItems] using hp)
      intro r hr b' hb'
      obtain ⟨q', hq', hq1, b'', hb''⟩ := h r hr b' hb'
      rcases List.mem_cons.mp hq' with he | hq'
      · rw [he] at hb''
        exact absurd hb'' (by simp)
      · exact ⟨q', hq', hq1, b'', hb''⟩
    | bool z =>
      intro p hp
      refine ih d ?_ p (by simpa [dropRefItems] using hp)
      intro r hr b' hb'
      obtain ⟨q', hq', hq1, b'', hb''⟩ := h r hr b' hb'
      rcases List.mem_cons.mp hq' with he | hq'
      · rw [he] at hb''
        exact absurd hb'' (by simp)
      · exact ⟨q', hq', hq1, b'', hb''⟩
    | int z =>
      intro p hp
      refine ih d ?_ p (by simpa [dropRefItems] using hp)
      intro r hr b' hb'
      obtain ⟨q', hq', hq1, b'', hb''⟩ := h r hr b' hb'
      rcases List.mem_cons.mp hq' with he | hq'
      · rw [he] at hb''
        exact absurd hb'' (by simp)
      · exact ⟨q', hq', hq1, b'', hb''⟩

/-! ## C1: precedence of the configuration layers -/

/-- C1 refuted as stated: with `user` supplied by the (global) CLI mapping
and also by instance `A`'s override, resolving instance `A` yields the
override's value, not the CLI value — the CLI does not win at the instance
layer when the value was supplied at the global CLI layer. -/
theorem C1_counterexample :
    PDict.get? c1CexCo.globalCliConfig "user" = some (.str "cli_alice")
  ∧ (match make_final_config c1CexCo c1CexHeap (some "A") with
     | .ok (_, c, _) => PDict.get? c "user"
     | .error _ => none) = some (.str "override_bob") :=
  ⟨rfl, rfl⟩

/-- C1 (amended): for every declared field `k` outside the bookkeeping keys
(`type`, `path`, `save`, `debug`, `instance_overrides`,
`current_instance`): the base configuration resolves to the subcommand CLI
value if present, else the global CLI value, else the file value, else the
default; an instance with a scalar-valued override resolves to the
subcommand CLI value if present, else the override value, else the base
layers — so the override wins over the global CLI layer, and only the CLI
values re-applied after the override win at the instance layer. -/
theorem C1_precedence (co : ConfigObj) (heap : Heap) (n : String) (bf : PDict)
    (ioA ovA : Nat) (k : String)
    (hfc : co.finalConfig = some bf)
    (hbf : PDict.get? bf "instance_overrides" = some (.ref ioA))
    (hov : PDict.get? (Heap.get heap ioA) n = some (.ref ovA))
    (hscalar : ∀ p ∈ Heap.get heap ovA, p.2.isScalar = true)
    (hcio : PDict.get? co.cliConfig "instance_overrides" = none)
    (hwfFile : PDict.WF co.fileConfig) (hwfGcli : PDict.WF co.globalCliConfig)
    (hwfOv : PDict.WF (Heap.get heap ovA)) (hwfCli : PDict.WF co.cliConfig)
    (hk : k ∉ specialKeys) :
    (∃ c, make_final_config co heap none = .ok (co, c, heap) ∧
      PDict.get? c k =
        pick (PDict.get? co.cliConfig k)
          (pick (PDict.get? co.globalCliConfig k)
            (pick (PDict.get? co.fileConfig k) (PDict.get? co.defaultConfig k))))
  ∧ (∃ c, make_final_config co heap (some n) = .ok (co, c, heap) ∧
      PDict.get? c k =
        pick (PDict.get? co.cliConfig k)
          (pick (PDict.get? (Heap.get heap ovA) k)
            (pick (PDict.get? co.globalCliConfig k)
              (pick (PDict.get? co.fileConfig k) (PDict.get? co.defaultConfig k))))) := by
  have hcfg0 : PDict.get?
      (PDict.update (PDict.update co.defaultConfig co.fileConfig) co.globalCliConfig) k =
      pick (PDict.get? co.globalCliConfig k)
        (pick (PDict.get? co.fileConfig k) (PDict.get? co.defaultConfig k)) := by
    rw [PDict.get?_update _ _ _ hwfGcli, PDict.get?_update _ _ _ hwfFile]
  constructor
  · refine ⟨finishTail co heap
        (PDict.update (PDict.update co.defaultConfig co.fileConfig) co.globalCliConfig)
        co.cliConfig none, ?_, ?_⟩
    · simp only [make_final_config, cliAndFinish_ok _ _ _ _ hcio, except_bind_ok]
    · rw [finishTail_get _ _ _ _ _ _ hwfCli hk, hcfg0]
  · refine ⟨finishTail co heap
        (PDict.update (PDict.update (PDict.update co.defaultConfig co.fileConfig) co.globalCliConfig)
          (Heap.get heap ovA))
        co.cliConfig (some n), ?_, ?_⟩
    · simp only [make_final_config, set_final_config_some _ _ _ hfc, except_bind_ok, hfc,
        hbf, hov, mergeLoop_scalar _ _ _ _ hscalar, cliAndFinish_ok _ _ _ _ hcio]
    · rw [finishTail_get _ _ _ _ _ _ hwfCli hk,
          PDict.get?_update _ _ _ hwfOv, hcfg0]

/-- Witness for C1 (amended) at the concrete four-layer configuration. -/
theorem C1_precedence_witness :
    (∃ c, make_final_config c1WitCo c1WitHeap none = .ok (c1WitCo, c, c1WitHeap) ∧
      PDict.get? c "user" =
        pick (PDict.get? c1WitCo.cliConfig "user")
          (pick (PDict.get? c1WitCo.globalCliConfig "user")
            (pick (PDict.get? c1WitCo.fileConfig "user") (PDict.get? c1WitCo.defaultConfig "user"))))
  ∧ (∃ c, make_final_config c1WitCo c1WitHeap (some "A") = .ok (c1WitCo, c, c1WitHeap) ∧
      PDict.get? c "user" =
        pick (PDict.get? c1WitCo.cliConfig "user")
          (pick (PDict.get? (Heap.get c1WitHeap 2) "user")
            (pick (PDict.get? c1WitCo.globalCliConfig "user")
              (pick (PDict.get? c1WitCo.fileConfig "user")
                (PDict.get? c1WitCo.defaultConfig "user"))))) :=
  C1_precedence c1WitCo c1WitHeap "A" [("instance_overrides", .ref 1)] 1 2 "user"
    rfl rfl rfl (by decide) rfl (by decide) (by decide) (by decide) (by decide) (by decide)

/-! ## C6: idempotent resolution, C7: override isolation -/

/-- C6: for fixed inputs, resolving the same instance's configuration twice
in a row yields the identical result (config and heap): the second
`_make_final_config` call, run on the state the first one left behind,
returns exactly the first call's output — the in-place merge of dict-valued
override fields and the deletion of their keys from the stored override
compensate each other. The base resolution is idempotent as well. -/
theorem C6_idempotent (co : ConfigObj) (heap : Heap) (n : String) (bf : PDict) (ioA ovA : Nat)
    (hfc : co.finalConfig = some bf)
    (hbf : PDict.get? bf "instance_overrides" = some (.ref ioA))
    (hov : PDict.get? (Heap.get heap ioA) n = some (.ref ovA))
    (hne : ovA ≠ ioA)
    (hcio : PDict.get? co.cliConfig "instance_overrides" = none)
    (hrefs : ∀ p ∈ Heap.get heap ovA, p.2.isScalar = false →
        refTargetOkB
          (PDict.update (PDict.update co.defaultConfig co.fileConfig) co.globalCliConfig)
          p.1 ovA ioA = true) :
    resolve_twice co heap (some n) = make_final_config co heap (some n)
  ∧ resolve_twice co heap none = make_final_config co heap none := by
  constructor
  · obtain ⟨h', hml, hioF, hovE⟩ :=
      mergeLoop_spec
        (PDict.update (PDict.update co.defaultConfig co.fileConfig) co.globalCliConfig)
        ovA ioA (Heap.get heap ovA) heap hne hrefs
    have h1 : make_final_config co heap (some n) =
        .ok (co, finishTail co h'
          (PDict.update
            (PDict.update (PDict.update co.defaultConfig co.fileConfig) co.globalCliConfig)
            (Heap.get h' ovA)) co.cliConfig (some n), h') := by
      simp only [make_final_config, set_final_config_some _ _ _ hfc, except_bind_ok, hfc, hbf,
        hov, hml, cliAndFinish_ok _ _ _ _ hcio]
    have hsc2 : ∀ p ∈ Heap.get h' ovA, p.2.isScalar = true := by
      rw [hovE]
      exact dropRefItems_no_ref _ _ (fun p hp b hb => ⟨p, hp, rfl, b, hb⟩)
    have hov2 : PDict.get? (Heap.get h' ioA) n = some (.ref ovA) := by
      rw [hioF]; exact hov
    have h2 : make_final_config co h' (some n) =
        .ok (co, finishTail co h'
          (PDict.update
            (PDict.update (PDict.update co.defaultConfig co.fileConfig) co.globalCliConfig)
            (Heap.get h' ovA)) co.cliConfig (some n), h') := by
      simp only [make_final_config, set_final_config_some _ _ _ hfc, except_bind_ok, hfc, hbf,
        hov2, mergeLoop_scalar _ _ _ _ hsc2, cliAndFinish_ok _ _ _ _ hcio]
    simp only [resolve_twice, h1]
    rw [h2]
  · have h1 : make_final_config co heap none =
        .ok (co, finishTail co heap
          (PDict.update (PDict.update co.defaultConfig co.fileConfig) co.globalCliConfig)
          co.cliConfig none, heap) := by
      simp only [make_final_config, cliAndFinish_ok _ _ _ _ hcio, except_bind_ok]
    simp only [resolve_twice, h1]

/-- Witness for C6 at a configuration whose instance `A` has a dict-valued
override field. -/
theorem C6_idempotent_witness :
    resolve_twice c6WitCo c6WitHeap (some "A") = make_final_config c6WitCo c6WitHeap (some "A")
  ∧ resolve_twice c6WitCo c6WitHeap none = make_final_config c6WitCo c6WitHeap none :=
  C6_idempotent c6WitCo c6WitHeap "A" [("instance_overrides", .ref 1)] 1 2
    rfl rfl rfl (by decide) rfl (by decide)

/-- C7 at the failing input: resolving instance `B` reads
`settings["x"] = "base"`; resolving instance `A`, whose override carries a
dict value for `settings`, mutates the shared heap cell of the base value
in place, so resolving `B` again reads `settings["x"] = "fromA"` — the
resolution of `A` changed `B`'s (and the base's) resolved configuration. -/
theorem C7_override_isolation_code :
    c7Observe = some (some (.str "base"), some (.str "fromA")) := rfl

/-! ## C2: aggregation of multi-instance results -/

/-- C2: for every non-empty list of per-instance result codes drawn from
Success/Failure/PartialFailure, the aggregate computed by
`multi_instance.multi_callback` is Success when all results are Success,
Failure when all are Failure, PartialFailure for any other mix, and it is
invariant under permutation of the results list. -/
theorem C2_aggregation (results : List Int)
    (hne : results ≠ [])
    (hmem : ∀ r ∈ results, r = STATUS_SUCCESS ∨ r = STATUS_FAILED ∨ r = STATUS_PARTIAL_FAIL) :
    ((∀ r ∈ results, r = STATUS_SUCCESS) → multi_callback_code results = STATUS_SUCCESS)
  ∧ ((∀ r ∈ results, r = STATUS_FAILED) → multi_callback_code results = STATUS_FAILED)
  ∧ ((¬ ∀ r ∈ results, r = STATUS_SUCCESS) → (¬ ∀ r ∈ results, r = STATUS_FAILED) →
      multi_callback_code results = STATUS_PARTIAL_FAIL)
  ∧ (∀ results' : List Int, results.Perm results' →
      multi_callback_code results = multi_callback_code results') := by
  refine ⟨?_, ?_, ?_, ?_⟩
  · intro hall
    have h1 : results.count STATUS_FAILED = 0 := by
      rw [List.count_eq_zero]
      intro hm
      have := hall _ hm
      simp [STATUS_SUCCESS, STATUS_FAILED] at this
    have h2 : results.count STATUS_PARTIAL_FAIL = 0 := by
      rw [List.count_eq_zero]
      intro hm
      have := hall _ hm
      simp [STATUS_SUCCESS, STATUS_PARTIAL_FAIL] at this
    have h3 : ¬ ((0 : Nat) = results.length) := by
      intro e
      exact hne (List.length_eq_zero.mp e.symm)
    simp [multi_callback_code, h1, h2, h3]
  · intro hall
    have hcount : results.count STATUS_FAILED = results.length :=
      List.count_eq_length.mpr (fun b hb => (hall b hb).symm)
    simp [multi_callback_code, hcount]
  · intro hns hnf
    have hlen : ¬ (results.count STATUS_FAILED = results.length) := by
      intro e
      exact hnf (fun r hr => ((List.count_eq_length.mp e) r hr).symm)
    push_neg at hns
    obtain ⟨r, hr, hrne⟩ := hns
    rcases hmem r hr with h0 | h1 | h2
    · exact absurd h0 hrne
    · have hpos : 0 < results.count STATUS_FAILED := List.count_pos_iff.mpr (h1 ▸ hr)
      simp only [multi_callback_code]
      split_ifs with e1 e2 e3 <;> first | rfl | exact absurd e1 hlen | omega
    · have hpos : 0 < results.count STATUS_PARTIAL_FAIL := List.count_pos_iff.mpr (h2 ▸ hr)
      simp only [multi_callback_code]
      split_ifs with e1 e2 e3 <;> first | rfl | exact absurd e1 hlen | omega
  · intro results' hp
    simp only [multi_callback_code, hp.count_eq, hp.length_eq]

/-- Witness for C2 at the concrete mix `[Success, Failure]`. -/
theorem C2_aggregation_witness :
    multi_callback_code [STATUS_SUCCESS, STATUS_FAILED] = STATUS_PARTIAL_FAIL :=
  (C2_aggregation [STATUS_SUCCESS, STATUS_FAILED] (by decide) (by decide)).2.2.1
    (by decide) (by decide)

/-! ## C3: sequential execution -/

/-- C3: `_run_sync` processes the plan exactly in order; when every
operation succeeds the collected results are in plan order, and when the
operation of one instance raises, the later instances are never invoked and
the exception propagates instead of becoming a result code. -/
theorem C3_sequential {E R : Type} (callback : String → Except E R) (plan : List String) :
    (∀ f : String → R, (∀ i ∈ plan, callback i = .ok (f i)) →
      run_sync_trace callback plan = (plan, .ok (plan.map f)))
  ∧ (∀ (pre : List String) (bad : String) (post : List String) (e : E),
      plan = pre ++ bad :: post →
      (∀ i ∈ pre, ∃ r, callback i = .ok r) →
      callback bad = .error e →
      run_sync_trace callback plan = (pre ++ [bad], .error e)) := by
  constructor
  · intro f
    induction plan with
    | nil => intro _; rfl
    | cons i rest ih =>
      intro hok
      have h1 := hok i (List.mem_cons_self _ _)
      have h2 : ∀ j ∈ rest, callback j = .ok (f j) :=
        fun j hj => hok j (List.mem_cons_of_mem _ hj)
      simp [run_sync_trace, h1, ih h2]
  · intro pre bad post e hplan hpre hbad
    subst hplan
    revert hpre
    induction pre with
    | nil => intro _; simp [run_sync_trace, hbad]
    | cons i rest ih =>
      intro hpre
      obtain ⟨r, hr⟩ := hpre i (List.mem_cons_self _ _)
      have h2 : ∀ j ∈ rest, ∃ q, callback j = .ok q :=
        fun j hj => hpre j (List.mem_cons_of_mem _ hj)
      simp [run_sync_trace, hr, ih h2]

/-- Witness for C3: the plan `[alpha, beta, gamma]` where `beta` raises is
aborted after `beta`; `gamma` is never invoked and the error propagates. -/
theorem C3_sequential_witness :
    run_sync_trace c3Callback ["alpha", "beta", "gamma"] = (["alpha", "beta"], .error "boom") :=
  (C3_sequential c3Callback ["alpha", "beta", "gamma"]).2 ["alpha"] "beta" ["gamma"] "boom"
    rfl (by intro i hi; exact ⟨0, by simp at hi; simp [c3Callback, hi]⟩) (by rfl)

/-! ## C4, C5: selector expansion and the single-instance guard -/

/-- C4 refuted as stated: on a SingleOnly operation, the multi-instance
selector `@each:ghost` with an undefined name raises UnknownInstanceError,
not the multi-instance-not-supported error (the body is still never
executed). -/
theorem C4_counterexample :
    single_instance_dispatch ctxTwo "edit" (some "@each:ghost") =
      .error (.unknownInstance "ghost") := rfl

/-- C4 (amended): a SingleOnly operation invoked with `@all` or `@each:...`
never executes its body: dispatch always raises. The raised error is the
multi-instance-not-supported ClickException whenever the server supports
multiple instances and, for `@each`, every listed name is defined;
an `@each` list with an undefined name raises UnknownInstanceError
instead, and a server without multi-instance support raises its
does-not-support-multiple-instances BadParameter. -/
theorem C4_single_guard (ctx : ServerCtx) (commandName s : String)
    (hat : strStartsWith s "@" = true)
    (hsel : s = "@all" ∨ strStartsWith s "@each:" = true) :
    (∀ i, single_instance_dispatch ctx commandName (some s) ≠ .ok i)
  ∧ (ctx.supportsMultiInstance = true →
      (s = "@all" ∨ ∀ n ∈ strSplitOnComma (strDrop s 6), ctx.allInstanceNames.contains n = true) →
      single_instance_dispatch ctx commandName (some s) =
        .error (.multiNotSupported commandName)) := by
  by_cases hm : ctx.supportsMultiInstance
  · by_cases hall : s = "@all"
    · subst hall
      have hw : instance_wrapper ctx (some "@all") = .ok (.runMulti ctx.allInstanceNames) := by
        simp [instance_wrapper, hm, hat, get_instance_names]
      constructor
      · intro i h
        rw [single_instance_dispatch, hw] at h
        simp at h
      · intro _ _
        rw [single_instance_dispatch, hw]
    · have heach : strStartsWith s "@each:" = true := hsel.resolve_left hall
      cases hf : (strSplitOnComma (strDrop s 6)).find?
          (fun n => !ctx.allInstanceNames.contains n) with
      | some n =>
        have hg : get_instance_names ctx s = .error (.unknownInstance n) := by
          simp only [get_instance_names, if_neg hall, if_pos heach, hf]
        have hw : instance_wrapper ctx (some s) = .error (.unknownInstance n) := by
          simp [instance_wrapper, hm, hat, hg]
        constructor
        · intro i h
          rw [single_instance_dispatch, hw] at h
          simp at h
        · intro _ hknown
          rcases hknown with h | hknown
          · exact absurd h hall
          · have hmem := List.mem_of_find?_eq_some hf
            have hpred := List.find?_some hf
            have := hknown n hmem
            rw [this] at hpred
            simp at hpred
      | none =>
        have hg : get_instance_names ctx s = .ok (strSplitOnComma (strDrop s 6)) := by
          simp only [get_instance_names, if_neg hall, if_pos heach, hf]
        have hw : instance_wrapper ctx (some s) =
            .ok (.runMulti (strSplitOnComma (strDrop s 6))) := by
          simp [instance_wrapper, hm, hat, hg]
        constructor
        · intro i h
          rw [single_instance_dispatch, hw] at h
          simp at h
        · intro _ _
          rw [single_instance_dispatch, hw]
  · have hw : instance_wrapper ctx (some s) =
        .error (.unsupportedMultiInstance ctx.serverName) := by
      simp [instance_wrapper, hm]
    constructor
    · intro i h
      rw [single_instance_dispatch, hw] at h
      simp at h
    · intro hms _
      exact absurd hms (by simp [hm])

/-- Witness for C4 (amended) at `@all` on a multi-instance server. -/
theorem C4_single_guard_witness :
    single_instance_dispatch ctxTwo "edit" (some "@all") =
      .error (.multiNotSupported "edit") :=
  (C4_single_guard ctxTwo "edit" "@all" (by decide) (Or.inl rfl)).2 rfl (Or.inl rfl)

/-- C5: selector expansion is total over the selector syntax: on a
multi-instance-capable server, `@all` expands to exactly the declared
instance names in order; `@each:...` expands to exactly the listed names
when each is defined and raises UnknownInstanceError at the first
undefined one; a bare name expands to exactly that instance when defined
and raises UnknownInstanceError when not. -/
theorem C5_selector_totality (ctx : ServerCtx) (s : String)
    (hm : ctx.supportsMultiInstance = true) :
    (instance_wrapper ctx (some "@all") = .ok (.runMulti ctx.allInstanceNames))
  ∧ (strStartsWith s "@" = true → strStartsWith s "@each:" = true → s ≠ "@all" →
      (∀ n ∈ strSplitOnComma (strDrop s 6), ctx.allInstanceNames.contains n = true) →
      instance_wrapper ctx (some s) = .ok (.runMulti (strSplitOnComma (strDrop s 6))))
  ∧ (∀ n0, strStartsWith s "@" = true → strStartsWith s "@each:" = true → s ≠ "@all" →
      (strSplitOnComma (strDrop s 6)).find? (fun n => !ctx.allInstanceNames.contains n) = some n0 →
      instance_wrapper ctx (some s) = .error (.unknownInstance n0))
  ∧ (strStartsWith s "@" = false → ctx.allInstanceNames.contains s = true →
      instance_wrapper ctx (some s) = .ok (.runSingle (some s)))
  ∧ (strStartsWith s "@" = false → ctx.allInstanceNames.contains s = false →
      instance_wrapper ctx (some s) = .error (.unknownInstance s)) := by
  refine ⟨?_, ?_, ?_, ?_, ?_⟩
  · have h1 : strStartsWith "@all" "@" = true := by decide
    simp [instance_wrapper, hm, h1, get_instance_names]
  · intro h1 h2 h3 h4
    have hf : (strSplitOnComma (strDrop s 6)).find?
        (fun n => !ctx.allInstanceNames.contains n) = none := by
      rw [List.find?_eq_none]
      intro x hx
      rw [h4 x hx]
      decide
    have hg : get_instance_names ctx s = .ok (strSplitOnComma (strDrop s 6)) := by
      simp only [get_instance_names, if_neg h3, if_pos h2, hf]
    simp [instance_wrapper, hm, h1, hg]
  · intro n0 h1 h2 h3 hf
    have hg : get_instance_names ctx s = .error (.unknownInstance n0) := by
      simp only [get_instance_names, if_neg h3, if_pos h2, hf]
    simp [instance_wrapper, hm, h1, hg]
  · intro h1 h2
    have h2m : s ∈ ctx.allInstanceNames := by simpa using h2
    simp [instance_wrapper, hm, h1, h2m]
  · intro h1 h2
    have h2m : s ∉ ctx.allInstanceNames := by simpa using h2
    simp [instance_wrapper, hm, h1, h2m]

/-- Witness for C5: concrete expansions on the two-instance server. -/
theorem C5_selector_totality_witness :
    instance_wrapper ctxTwo (some "@all") = .ok (.runMulti ["alpha", "beta"])
  ∧ instance_wrapper ctxTwo (some "@each:alpha,beta") = .ok (.runMulti ["alpha", "beta"])
  ∧ instance_wrapper ctxTwo (some "@each:alpha,ghost") = .error (.unknownInstance "ghost")
  ∧ instance_wrapper ctxTwo (some "alpha") = .ok (.runSingle (some "alpha"))
  ∧ instance_wrapper ctxTwo (some "ghost") = .error (.unknownInstance "ghost") :=
  ⟨(C5_selector_totality ctxTwo "x" rfl).1,
   (C5_selector_totality ctxTwo "@each:alpha,beta" rfl).2.1
     (by decide) (by decide) (by decide) (by decide),
   (C5_selector_totality ctxTwo "@each:alpha,ghost" rfl).2.2.1 "ghost"
     (by decide) (by decide) (by decide) (by decide),
   (C5_selector_totality ctxTwo "alpha" rfl).2.2.2.1 (by decide) (by decide),
   (C5_selector_totality ctxTwo "ghost" rfl).2.2.2.2 (by decide) (by decide)⟩

/-! ## C8, C9, C10: PID tracking and lifecycle -/

/-- C8 at the failing input: a stale tracked PID makes `is_running` return
false and deletes the PID file; a missing PID file returns false with the
state unchanged; but `is_accessible`, which passes `delete_pid=False`,
still has the PID file deleted, because `is_running` drops the argument. -/
theorem C8_pid_staleness_code :
    (is_running c8Stale).1 = false
  ∧ (is_running c8Stale).2.pidFile = none
  ∧ (is_running c8NoPid).1 = false
  ∧ (is_running c8NoPid).2 = c8NoPid
  ∧ (is_accessible c8Stale).1 = false
  ∧ (is_accessible c8Stale).2.pidFile = none :=
  ⟨rfl, rfl, rfl, rfl, rfl, rfl⟩

/-- C9: `stop --force` on a running server skips the pre-stop wait, the
broadcast and the graceful stop command; the only event is a SIGKILL to the
tracked PID and the only wait one second, after which Success is returned
exactly when the OS reports the process gone (the PID file is then
deleted), and PartialFailure when it is still alive. -/
theorem C9_stop_force (s : ServerProc) (pid : Int)
    (hpid : s.pidFile = some pid)
    (halive : s.alive s.now pid = true) :
    stop s true =
      (if s.alive (s.now + 1) pid then STATUS_PARTIAL_FAIL else STATUS_SUCCESS,
       { s with events := s.events ++ [SEvent.sigkill pid],
                now := s.now + 1,
                pidFile := if s.alive (s.now + 1) pid then some pid else none }) := by
  by_cases h2 : s.alive (s.now + 1) pid
  · simp [stop, is_running, is_running_single, kill_server, logEvent, sleepSec, hpid, halive, h2]
  · simp [stop, is_running, is_running_single, kill_server, logEvent, sleepSec, hpid, halive, h2]

/-- Witness for C9: PID 42 is alive at time 0 and dead after the kill. -/
theorem C9_stop_force_witness :
    stop c9Proc true =
      (STATUS_SUCCESS, { c9Proc with events := [SEvent.sigkill 42], now := 1, pidFile := none }) :=
  C9_stop_force c9Proc 42 rfl rfl

/-- C10: `start` on an instance whose tracked PID is alive returns
PartialFailure immediately with the server state untouched: no launch
command, no PID-file deletion or rewrite, no startup polling. -/
theorem C10_start_running (s : ServerProc) (pid : Int) (noVerify foreground : Bool)
    (hpid : s.pidFile = some pid) (halive : s.alive s.now pid = true) :
    start s noVerify foreground = .ok (some STATUS_PARTIAL_FAIL, s) := by
  simp [start, is_running, is_running_single, hpid, halive]

/-- Witness for C10 at a server whose PID 42 stays alive. -/
theorem C10_start_running_witness :
    start c10Proc false false = .ok (some STATUS_PARTIAL_FAIL, c10Proc) :=
  C10_start_running c10Proc 42 false false rfl rfl

end GsMgr
